import Mathlib

/-!
# OpsGenie team role resource

A shallow embedding of `opsgenie/resource_opsgenie_team_role.go` and of the
destroy check of `opsgenie/resource_opsgenie_team_role_test.go`.

* Go values of type `any` are the inductive `GoValue`; a failed type assertion
  (a panic) is the result `none`.
* A pointer `*bool` is an `Option Bool` (`none` is the nil pointer).
* The remote service is a record of functions over an arbitrary world type:
  every client call takes the world and returns its result and the next world.
  Every operation returns, next to its Go result, the list of client calls it
  made, in order, each with the error that call returned.
-/

namespace Opsgenie

/-! ## Go values -/

/-- A Go value of type `any` (`interface{}`), as far as the resource inspects one. -/
inductive GoValue where
  | nil
  | str (s : String)
  | bool (b : Bool)
  | int (n : Int)
  | map (m : List (String × GoValue))

/-- Go's `m[key]` on a `map[string]interface{}`: the value stored under `key`,
the nil interface when the key is missing. -/
def GoValue.index (m : List (String × GoValue)) (key : String) : GoValue :=
  match m with
  | [] => GoValue.nil
  | (k, v) :: rest => if k = key then v else GoValue.index rest key

/-- Go errors: an `*ogClient.ApiError` with its status code and rendered text,
or an error of any other dynamic type. -/
inductive GoError where
  | apiError (StatusCode : Int) (text : String)
  | other (text : String)
  deriving DecidableEq, Repr

/-- The method `Error()` of an error value. -/
def GoError.Error : GoError → String
  | GoError.apiError _ text => text
  | GoError.other text => text

/-! ## The allow-list and the validation of the `right` field -/

/-- The allow-list of permission names (lines 13-35). -/
def validTeamRolesRights : List String := [
  "manage-members",
  "edit-team-roles",
  "delete-team-roles",
  "access-member-profiles",
  "edit-member-profiles",
  "edit-routing-rules",
  "delete-routing-rules",
  "edit-escalations",
  "delete-escalations",
  "edit-schedules",
  "delete-schedules",
  "edit-integrations",
  "delete-integrations",
  "edit-heartbeats",
  "delete-heartbeats",
  "access-reports",
  "edit-services",
  "delete-services",
  "edit-rooms",
  "delete-rooms",
  "send-service-status-update"
]

/-- Modelled from the spec: `strings.EqualFold` of the Go standard library is
not under src/; it is only consulted when `ignoreCase` is set, which the
resource never does. Equality after ASCII lower-casing stands for it. -/
def EqualFold (a b : String) : Bool :=
  a.toLower == b.toLower

/-- Modelled from the spec: `validation.StringInSlice` of the plugin SDK is not
under src/. Per the spec it is list-membership validation against the fixed
allow-list: the value must be a string and must equal one entry of `valid`
(also up to case when `ignoreCase` is set); otherwise one error is reported.
The result is the pair (warnings, errors). -/
def StringInSlice (valid : List String) (ignoreCase : Bool)
    (i : GoValue) (k : String) : List String × List String :=
  match i with
  | GoValue.str v =>
    if valid.any (fun str => v == str || (ignoreCase && EqualFold v str)) then
      ([], [])
    else
      ([], ["expected " ++ k ++ " to be one of " ++ toString valid ++ ", got " ++ v])
  | _ => ([], ["expected type of " ++ k ++ " to be string"])

/-- The `ValidateFunc` of the schema field `rights.right` (line 64). -/
def rightValidateFunc (i : GoValue) (k : String) : List String × List String :=
  StringInSlice validTeamRolesRights false i k

/-- Schema validation accepts a value for the `right` field when the
validation function reports no error. -/
def rightAccepted (i : GoValue) : Prop :=
  (rightValidateFunc i "right").2 = []

/-! ## `mapRights` -/

namespace team

/-- The SDK type `team.Right`: a permission name and a `*bool`. -/
structure Right where
  Right : String
  Granted : Option Bool
  deriving DecidableEq, Repr

end team

/-- The loop of `mapRights` (lines 79-88): `rights` is the slice built so far. -/
def mapRightsLoop : List GoValue → List team.Right → Option (List team.Right)
  | [], rights => some rights
  | r :: rest, rights =>
    match r with
    | GoValue.map m =>
      match GoValue.index m "granted" with
      | GoValue.bool granted =>
        match GoValue.index m "right" with
        | GoValue.str right =>
          mapRightsLoop rest (rights ++ [{ Right := right, Granted := some granted }])
        | _ => none
      | _ => none
    | _ => none

/-- The function `mapRights` (lines 77-90); `none` is a panic of one of its type
assertions. The variable `granted` is declared inside the loop body, so every
element gets a pointer of its own: the pointer is modelled by its value. -/
def mapRights (rawRights : List GoValue) : Option (List team.Right) :=
  mapRightsLoop rawRights []

/-- What the schema of `rights` guarantees of an element: a map holding a
string under "right" and a boolean under "granted". -/
def isRightsElem : GoValue → Bool
  | GoValue.map m =>
    (match GoValue.index m "right" with
      | GoValue.str _ => true
      | _ => false) &&
    (match GoValue.index m "granted" with
      | GoValue.bool _ => true
      | _ => false)
  | _ => false

/-- The value an element holds under `key`; nil when the element is no map. -/
def GoValue.field (v : GoValue) (key : String) : GoValue :=
  match v with
  | GoValue.map m => GoValue.index m key
  | _ => GoValue.nil

/-! ## The SDK's request and result types -/

namespace team

/-- The SDK enumeration `team.Identifier`, declared outside src/ as
`Name Identifier = iota` followed by `Id`. -/
inductive Identifier where
  | Name
  | Id
  deriving DecidableEq, Repr

/-- The conversion `int(x)` of an identifier: its position in the enumeration. -/
def Identifier.toInt : Identifier → Int
  | Identifier.Name => 0
  | Identifier.Id => 1

structure CreateTeamRoleRequest where
  TeamIdentifierType : Identifier
  TeamIdentifierValue : String
  Name : String
  Rights : List Right
  deriving DecidableEq, Repr

structure GetTeamRoleRequest where
  TeamID : String
  RoleID : String
  RoleName : String
  deriving DecidableEq, Repr

structure UpdateTeamRoleRequest where
  TeamID : String
  RoleID : String
  RoleName : String
  Rights : List Right
  deriving DecidableEq, Repr

structure DeleteTeamRoleRequest where
  TeamID : String
  RoleID : String
  RoleName : String
  deriving DecidableEq, Repr

structure CreateTeamRoleResult where
  Id : String
  Name : String
  deriving DecidableEq, Repr

structure GetTeamRoleResult where
  Id : String
  Name : String
  Rights : List Right
  deriving DecidableEq, Repr

structure UpdateTeamRoleResult where
  Id : String
  Name : String
  deriving DecidableEq, Repr

structure DeleteTeamRoleResult where
  Result : String
  deriving DecidableEq, Repr

end team

/-! ## The client and the log of its calls -/

/-- One call of the API client: the constructor `team.NewClient` or one of the
four remote requests, with the request sent. -/
inductive Call where
  | NewClient
  | CreateRole (req : team.CreateTeamRoleRequest)
  | GetRole (req : team.GetTeamRoleRequest)
  | UpdateRole (req : team.UpdateTeamRoleRequest)
  | DeleteRole (req : team.DeleteTeamRoleRequest)
  deriving DecidableEq, Repr

/-- A logged client call and the error it returned (`none` for a nil error). -/
structure Event where
  call : Call
  err : Option GoError
  deriving DecidableEq, Repr

/-- The API client and the service behind it, over a world `W` the resource
cannot see: each call returns its Go result and the next world. -/
structure Service (W : Type) where
  NewClient : W → Except GoError Unit × W
  CreateRole : team.CreateTeamRoleRequest → W → Except GoError team.CreateTeamRoleResult × W
  GetRole : team.GetTeamRoleRequest → W → Except GoError team.GetTeamRoleResult × W
  UpdateRole : team.UpdateTeamRoleRequest → W → Except GoError team.UpdateTeamRoleResult × W
  DeleteRole : team.DeleteTeamRoleRequest → W → Except GoError team.DeleteTeamRoleResult × W

/-- The world together with the log of the client calls made so far. -/
structure Remote (W : Type) where
  world : W
  calls : List Event

/-- A run starts with an empty log. -/
def Remote.start {W : Type} (w : W) : Remote W :=
  { world := w, calls := [] }

/-- The error a Go result pair carries. -/
def errOf {α : Type} : Except GoError α → Option GoError
  | Except.error e => some e
  | Except.ok _ => none

/-- Performs one client call: the result of `run` on the current world is
handed back, the world advances and the call is appended to the log with the
error it returned. -/
def perform {W α : Type} (call : Call) (run : W → Except GoError α × W)
    (s : Remote W) : Except GoError α × Remote W :=
  ((run s.world).1,
    { world := (run s.world).2, calls := s.calls ++ [{ call := call, err := errOf (run s.world).1 }] })

/-- The remote API requests of a log: every call but the client constructor,
which sends nothing. -/
def remoteCalls (calls : List Event) : List Call :=
  (calls.map (fun ev => ev.call)).filter (fun c => decide (c ≠ Call.NewClient))

/-! ## The tracked state -/

/-- The `*schema.ResourceData` of a team role: the resource ID and the three
schema fields. `rights` is the list `d.Get("rights").(*schema.Set).List()`
yields; the order in which a set lists its elements and its merging of equal
elements are not modelled. -/
structure ResourceData where
  Id : String
  team_id : String
  role_name : String
  rights : List GoValue

/-- The method `d.SetId`. -/
def ResourceData.SetId (d : ResourceData) (v : String) : ResourceData :=
  { d with Id := v }

/-- Modelled from the spec: `(*schema.ResourceData).Set` of the plugin SDK is
not under src/. Per the spec the response is copied back into the same flat
record: `d.Set("role_name", v)` makes `v` the role name. The error `Set`
returns is discarded by the resource (line 134). -/
def ResourceData.Set_role_name (d : ResourceData) (v : String) : ResourceData :=
  { d with role_name := v }

/-- The call `d.Set("rights", v)` of line 135 with a `[]team.Right`, whose
error result the resource discards. `Set` is plugin-SDK code outside src/: it
writes a list element by element under the keys of the schema, which are
"right" and "granted", while a `team.Right` struct is handed over as it is,
not as a map with those keys. For a list with at least one right the call
therefore fails and the rights stay as they were; the empty list is stored as
the empty set. -/
def ResourceData.Set_rights (d : ResourceData) (v : List team.Right) : ResourceData :=
  match v with
  | [] => { d with rights := [] }
  | _ :: _ => d

/-- What an operation leaves behind: the error it returns (`none` for nil), the
tracked state, and the world with the log of client calls. -/
structure Outcome (W : Type) where
  err : Option GoError
  d : ResourceData
  remote : Remote W

/-! ## The four operations -/

/-- The function `resourceOpsGenieTeamRoleRead` (lines 117-138). -/
def resourceOpsGenieTeamRoleRead {W : Type} (svc : Service W) (d : ResourceData)
    (s : Remote W) : Outcome W :=
  match perform Call.NewClient svc.NewClient s with
  | (Except.error err, s1) => { err := some err, d := d, remote := s1 }
  | (Except.ok _, s1) =>
    let getRequest : team.GetTeamRoleRequest :=
      { TeamID := d.team_id, RoleID := d.Id, RoleName := d.role_name }
    match perform (Call.GetRole getRequest) (svc.GetRole getRequest) s1 with
    | (Except.error err, s2) => { err := some err, d := d, remote := s2 }
    | (Except.ok teamRole, s2) =>
      { err := none,
        d := (d.Set_role_name teamRole.Name).Set_rights teamRole.Rights,
        remote := s2 }

/-- The function `resourceOpsGenieTeamRoleCreate` (lines 92-115); `none` is a
panic of `mapRights`. -/
def resourceOpsGenieTeamRoleCreate {W : Type} (svc : Service W) (d : ResourceData)
    (s : Remote W) : Option (Outcome W) :=
  match perform Call.NewClient svc.NewClient s with
  | (Except.error err, s1) => some { err := some err, d := d, remote := s1 }
  | (Except.ok _, s1) =>
    let name := d.role_name
    match mapRights d.rights with
    | none => none
    | some rights =>
      let createRequest : team.CreateTeamRoleRequest :=
        { TeamIdentifierType := team.Identifier.Id,
          TeamIdentifierValue := d.team_id,
          Name := name,
          Rights := rights }
      match perform (Call.CreateRole createRequest) (svc.CreateRole createRequest) s1 with
      | (Except.error err, s2) => some { err := some err, d := d, remote := s2 }
      | (Except.ok result, s2) =>
        some (resourceOpsGenieTeamRoleRead svc (d.SetId result.Id) s2)

/-- The function `resourceOpsGenieTeamRoleUpdate` (lines 140-160); `none` is a
panic of `mapRights`. -/
def resourceOpsGenieTeamRoleUpdate {W : Type} (svc : Service W) (d : ResourceData)
    (s : Remote W) : Option (Outcome W) :=
  match perform Call.NewClient svc.NewClient s with
  | (Except.error err, s1) => some { err := some err, d := d, remote := s1 }
  | (Except.ok _, s1) =>
    match mapRights d.rights with
    | none => none
    | some rights =>
      let updateRequest : team.UpdateTeamRoleRequest :=
        { TeamID := d.team_id, RoleID := d.Id, RoleName := d.role_name, Rights := rights }
      match perform (Call.UpdateRole updateRequest) (svc.UpdateRole updateRequest) s1 with
      | (Except.error err, s2) => some { err := some err, d := d, remote := s2 }
      | (Except.ok _, s2) => some { err := none, d := d, remote := s2 }

/-- The function `resourceOpsGenieTeamRoleDelete` (lines 162-181). -/
def resourceOpsGenieTeamRoleDelete {W : Type} (svc : Service W) (d : ResourceData)
    (s : Remote W) : Outcome W :=
  match perform Call.NewClient svc.NewClient s with
  | (Except.error err, s1) => { err := some err, d := d, remote := s1 }
  | (Except.ok _, s1) =>
    let deleteRequest : team.DeleteTeamRoleRequest :=
      { TeamID := d.team_id, RoleID := d.Id, RoleName := d.role_name }
    match perform (Call.DeleteRole deleteRequest) (svc.DeleteRole deleteRequest) s1 with
    | (Except.error err, s2) => { err := some err, d := d, remote := s2 }
    | (Except.ok _, s2) => { err := none, d := d, remote := s2 }

/-! ## The destroy check of the acceptance tests -/

/-- A `*terraform.ResourceState`: its type and the attributes of its primary
instance. -/
structure ResourceState where
  type : String
  Attributes : List (String × String)
  deriving DecidableEq, Repr

/-- Go's `m[key]` on a `map[string]string`: the empty string for a missing key. -/
def lookupAttr (m : List (String × String)) (key : String) : String :=
  match m with
  | [] => ""
  | (k, v) :: rest => if k = key then v else lookupAttr rest key

/-- What the destroy check leaves behind: the error it returns and the world
with the log of client calls. -/
structure CheckOutcome (W : Type) where
  err : Option GoError
  remote : Remote W

/-- The loop of `testCheckOpsGenieTeamRoleDestroy` (lines 104-120) over the
resources of the root module, in the order the iteration visits them; `none` is
the panic of the assertion `err.(*ogClient.ApiError)`. -/
def testCheckOpsGenieTeamRoleDestroyLoop {W : Type} (svc : Service W) :
    List ResourceState → Remote W → Option (CheckOutcome W)
  | [], s => some { err := none, remote := s }
  | rs :: rest, s =>
    if rs.type ≠ "opsgenie_team_role" then
      testCheckOpsGenieTeamRoleDestroyLoop svc rest s
    else
      let req : team.GetTeamRoleRequest :=
        { TeamID := toString team.Identifier.Id.toInt,
          RoleID := lookupAttr rs.Attributes "role_id",
          RoleName := lookupAttr rs.Attributes "role_name" }
      match perform (Call.GetRole req) (svc.GetRole req) s with
      | (Except.error err, s1) =>
        match err with
        | GoError.apiError StatusCode _ =>
          if StatusCode ≠ 404 then
            some { err := some (GoError.other ("Team role still exists : " ++ err.Error)),
                   remote := s1 }
          else
            testCheckOpsGenieTeamRoleDestroyLoop svc rest s1
        | GoError.other _ => none
      | (Except.ok _, s1) => testCheckOpsGenieTeamRoleDestroyLoop svc rest s1

/-- The function `testCheckOpsGenieTeamRoleDestroy` (lines 99-123) on the
resources of the state's root module. -/
def testCheckOpsGenieTeamRoleDestroy {W : Type} (svc : Service W)
    (resources : List ResourceState) (s : Remote W) : Option (CheckOutcome W) :=
  match perform Call.NewClient svc.NewClient s with
  | (Except.error err, s1) => some { err := some err, remote := s1 }
  | (Except.ok _, s1) => testCheckOpsGenieTeamRoleDestroyLoop svc resources s1

/-! ## Concrete services and states for evaluation -/

/-- A service on which every call succeeds: roles are created under the ID
"role-1" and every lookup finds a role granting `edit-rooms`. -/
def okService : Service Unit where
  NewClient := fun w => (Except.ok (), w)
  CreateRole := fun req w => (Except.ok { Id := "role-1", Name := req.Name }, w)
  GetRole := fun req w =>
    (Except.ok { Id := req.RoleID, Name := req.RoleName,
                 Rights := [{ Right := "edit-rooms", Granted := some true }] }, w)
  UpdateRole := fun req w => (Except.ok { Id := req.RoleID, Name := req.RoleName }, w)
  DeleteRole := fun _ w => (Except.ok { Result := "Deleted" }, w)

/-- A service on which every call succeeds and whose lookup finds the role
under another name, "opsgenie-renamed", with `edit-rooms` denied. -/
def driftService : Service Unit where
  NewClient := fun w => (Except.ok (), w)
  CreateRole := fun req w => (Except.ok { Id := "role-1", Name := req.Name }, w)
  GetRole := fun req w =>
    (Except.ok { Id := req.RoleID, Name := "opsgenie-renamed",
                 Rights := [{ Right := "edit-rooms", Granted := some false }] }, w)
  UpdateRole := fun req w => (Except.ok { Id := req.RoleID, Name := req.RoleName }, w)
  DeleteRole := fun _ w => (Except.ok { Result := "Deleted" }, w)

/-- A service on which the client is constructed and every remote request
fails with the error `e`. -/
def failingService (e : GoError) : Service Unit where
  NewClient := fun w => (Except.ok (), w)
  CreateRole := fun _ w => (Except.error e, w)
  GetRole := fun _ w => (Except.error e, w)
  UpdateRole := fun _ w => (Except.error e, w)
  DeleteRole := fun _ w => (Except.error e, w)

/-- The team role of the acceptance test `testAccOpsGenieTeamRole_basic`, for a
team "team-7", before it has an ID. -/
def basicRole : ResourceData :=
  { Id := "",
    team_id := "team-7",
    role_name := "opsgenie-abc",
    rights := [GoValue.map [("right", GoValue.str "access-member-profiles"),
                            ("granted", GoValue.bool true)]] }

/-- A final state holding one team role resource. -/
def oneRoleState : List ResourceState :=
  [{ type := "opsgenie_team_role",
     Attributes := [("id", "role-1"), ("role_name", "opsgenie-abc"), ("team_id", "team-7")] }]

/-! ## Error propagation, as a property of a result and its log -/

/-- With `ignoreCase` unset, `StringInSlice` reports no error for a string
exactly when the string is an entry of `valid`. -/
theorem StringInSlice_exact (valid : List String) (v k : String) :
    (StringInSlice valid false (GoValue.str v) k).2 = [] ↔ v ∈ valid := by
  unfold StringInSlice
  by_cases h : v ∈ valid
  · have hany : valid.any (fun str => v == str || (false && EqualFold v str)) = true := by
      simp only [List.any_eq_true]
      exact ⟨v, h, by simp⟩
    simp [hany, h]
  · have hany : valid.any (fun str => v == str || (false && EqualFold v str)) = false := by
      rw [List.any_eq_false]
      intro x hx
      have hne : v ≠ x := fun hvx => h (hvx ▸ hx)
      simp [hne]
    simp [hany, h]

/-- Claim C1: schema validation accepts a string given as the `right` of a
rights element if and only if it is, case-sensitively, an entry of
`validTeamRolesRights`; the right "access-member" of the test configuration is
rejected, an entry written in upper case is rejected, and every entry of the
allow-list is accepted. -/
theorem right_accepted_iff_allowed :
    (∀ s : String, rightAccepted (GoValue.str s) ↔ s ∈ validTeamRolesRights) ∧
    ¬ rightAccepted (GoValue.str "access-member") ∧
    ¬ rightAccepted (GoValue.str "EDIT-ROOMS") ∧
    (∀ s : String, s ∈ validTeamRolesRights → rightAccepted (GoValue.str s)) := by
  have hiff : ∀ s : String, rightAccepted (GoValue.str s) ↔ s ∈ validTeamRolesRights :=
    fun s => StringInSlice_exact validTeamRolesRights s "right"
  refine ⟨hiff, ?_, ?_, fun s hs => (hiff s).2 hs⟩
  · rw [hiff]
    decide
  · rw [hiff]
    decide

/-- Claim C2: the allow-list `validTeamRolesRights` has exactly 21 entries and
they are pairwise distinct, so the set of accepted names has 21 elements. -/
theorem validTeamRolesRights_21_distinct :
    validTeamRolesRights.length = 21 ∧ validTeamRolesRights.Nodup ∧
    validTeamRolesRights.toFinset.card = 21 := by
  have hnodup : validTeamRolesRights.Nodup := by decide
  refine ⟨rfl, hnodup, ?_⟩
  rw [List.toFinset_card_of_nodup hnodup]
  rfl

/-! ## `mapRights` -/

/-- A well-formed element is a map with a string under "right" and a boolean
under "granted". -/
theorem isRightsElem_iff (r : GoValue) :
    isRightsElem r = true ↔
      ∃ m right granted, r = GoValue.map m ∧
        GoValue.index m "right" = GoValue.str right ∧
        GoValue.index m "granted" = GoValue.bool granted := by
  constructor
  · intro h
    cases r with
    | map m =>
      simp only [isRightsElem, Bool.and_eq_true] at h
      obtain ⟨h1, h2⟩ := h
      cases hr : GoValue.index m "right" with
      | str right =>
        cases hg : GoValue.index m "granted" with
        | bool granted => exact ⟨m, right, granted, rfl, hr, hg⟩
        | nil => simp [hg] at h2
        | str _ => simp [hg] at h2
        | int _ => simp [hg] at h2
        | map _ => simp [hg] at h2
      | nil => simp [hr] at h1
      | bool _ => simp [hr] at h1
      | int _ => simp [hr] at h1
      | map _ => simp [hr] at h1
    | nil => simp [isRightsElem] at h
    | str _ => simp [isRightsElem] at h
    | bool _ => simp [isRightsElem] at h
    | int _ => simp [isRightsElem] at h
  · rintro ⟨m, right, granted, rfl, hr, hg⟩
    simp [isRightsElem, hr, hg]

/-- One turn of the loop on a well-formed element appends its right. -/
theorem mapRightsLoop_cons_ok (m : List (String × GoValue)) (right : String) (granted : Bool)
    (rest : List GoValue) (rights : List team.Right)
    (hr : GoValue.index m "right" = GoValue.str right)
    (hg : GoValue.index m "granted" = GoValue.bool granted) :
    mapRightsLoop (GoValue.map m :: rest) rights =
      mapRightsLoop rest (rights ++ [{ Right := right, Granted := some granted }]) := by
  simp [mapRightsLoop, hr, hg]

/-- One turn of the loop on an element that is not well-formed panics. -/
theorem mapRightsLoop_cons_bad (r : GoValue) (rest : List GoValue) (rights : List team.Right)
    (h : isRightsElem r = false) : mapRightsLoop (r :: rest) rights = none := by
  cases r with
  | map m =>
    cases hg : GoValue.index m "granted" <;> cases hr : GoValue.index m "right" <;>
      simp_all [mapRightsLoop, isRightsElem]
  | nil => simp [mapRightsLoop]
  | str _ => simp [mapRightsLoop]
  | bool _ => simp [mapRightsLoop]
  | int _ => simp [mapRightsLoop]

/-- On well-formed elements the loop returns the slice built so far followed by
one right per element, in order, each a copy of the two fields of its element. -/
theorem mapRightsLoop_spec (l : List GoValue) :
    ∀ rights : List team.Right, (∀ r ∈ l, isRightsElem r = true) →
      ∃ out : List team.Right, mapRightsLoop l rights = some (rights ++ out) ∧
        out.length = l.length ∧
        ∀ (i : Nat) (hi : i < l.length), ∃ x granted, out[i]? = some x ∧
          (l.get ⟨i, hi⟩).field "right" = GoValue.str x.Right ∧
          x.Granted = some granted ∧
          (l.get ⟨i, hi⟩).field "granted" = GoValue.bool granted := by
  induction l with
  | nil =>
    intro rights _
    exact ⟨[], by simp [mapRightsLoop], rfl, fun i hi => absurd hi (Nat.not_lt_zero i)⟩
  | cons r rest ih =>
    intro rights h
    obtain ⟨m, right, granted, rfl, hr, hg⟩ := (isRightsElem_iff r).1 (h r (List.mem_cons_self _ _))
    obtain ⟨out, hout, hlen, hidx⟩ :=
      ih (rights ++ [{ Right := right, Granted := some granted }])
        (fun x hx => h x (List.mem_cons_of_mem _ hx))
    refine ⟨{ Right := right, Granted := some granted } :: out, ?_, by simp [hlen], ?_⟩
    · rw [mapRightsLoop_cons_ok m right granted rest rights hr hg, hout]
      simp
    · intro i hi
      cases i with
      | zero =>
        exact ⟨{ Right := right, Granted := some granted }, granted, by simp,
          by simpa [GoValue.field] using hr, rfl, by simpa [GoValue.field] using hg⟩
      | succ j =>
        have hj : j < rest.length := by simpa using hi
        obtain ⟨x, g, hx, h1, h2, h3⟩ := hidx j hj
        exact ⟨x, g, by simpa using hx, by simpa using h1, h2, by simpa using h3⟩

/-- When the loop returns, every element it visited was well-formed. -/
theorem mapRightsLoop_isSome (l : List GoValue) :
    ∀ rights : List team.Right, (mapRightsLoop l rights).isSome = true →
      ∀ r ∈ l, isRightsElem r = true := by
  induction l with
  | nil => intro _ _ r hr; cases hr
  | cons a rest ih =>
    intro rights hsome r hr
    cases ha : isRightsElem a with
    | false => rw [mapRightsLoop_cons_bad a rest rights ha] at hsome; cases hsome
    | true =>
      obtain ⟨m, right, granted, rfl, hr', hg⟩ := (isRightsElem_iff a).1 ha
      rw [mapRightsLoop_cons_ok m right granted rest rights hr' hg] at hsome
      rcases List.mem_cons.1 hr with rfl | hmem
      · exact ha
      · exact ih _ hsome r hmem

/-- Claim C5: `mapRights` is a 1:1, order-preserving field copy. On a list of
well-formed elements it returns a list of the same length whose i-th right has
the name the i-th element holds under "right" and a non-nil `Granted` equal to
the boolean that same element holds under "granted" (so `false` is sent as an
explicit false); and `mapRights` of the empty list is the empty list. -/
theorem mapRights_field_copy (rawRights : List GoValue)
    (h : ∀ r ∈ rawRights, isRightsElem r = true) :
    (∃ rights : List team.Right, mapRights rawRights = some rights ∧
      rights.length = rawRights.length ∧
      ∀ (i : Nat) (hi : i < rawRights.length), ∃ x granted, rights[i]? = some x ∧
        (rawRights.get ⟨i, hi⟩).field "right" = GoValue.str x.Right ∧
        x.Granted = some granted ∧
        (rawRights.get ⟨i, hi⟩).field "granted" = GoValue.bool granted) ∧
    mapRights [] = some [] := by
  obtain ⟨out, hout, hlen, hidx⟩ := mapRightsLoop_spec rawRights [] h
  exact ⟨⟨out, by simpa [mapRights] using hout, hlen, hidx⟩, rfl⟩

/-- Witness of claim C5: a denied right and a granted right are copied in
order, the denial as an explicit false. -/
theorem mapRights_field_copy_witness :
    mapRights [GoValue.map [("right", GoValue.str "edit-rooms"), ("granted", GoValue.bool false)],
               GoValue.map [("granted", GoValue.bool true), ("right", GoValue.str "delete-rooms")]]
      = some [{ Right := "edit-rooms", Granted := some false },
              { Right := "delete-rooms", Granted := some true }] ∧
    ((∃ rights : List team.Right,
      mapRights [GoValue.map [("right", GoValue.str "edit-rooms"), ("granted", GoValue.bool false)],
                 GoValue.map [("granted", GoValue.bool true), ("right", GoValue.str "delete-rooms")]]
        = some rights ∧ rights.length = 2) ∧ mapRights [] = some []) := by
  refine ⟨by decide, ?_⟩
  obtain ⟨⟨rights, h1, h2, _⟩, h3⟩ := mapRights_field_copy
    [GoValue.map [("right", GoValue.str "edit-rooms"), ("granted", GoValue.bool false)],
     GoValue.map [("granted", GoValue.bool true), ("right", GoValue.str "delete-rooms")]]
    (by decide)
  exact ⟨⟨rights, h1, h2⟩, h3⟩

/-- Claim C10: `mapRights` is total on schema-valid input and only there. On a
list whose elements are all maps with a string under "right" and a boolean
under "granted" it returns a result; on a list with an element that is not such
a map (no map, a missing key, a value of another type) it panics. -/
theorem mapRights_total_iff_wellformed (rawRights : List GoValue) :
    ((∀ r ∈ rawRights, isRightsElem r = true) → (mapRights rawRights).isSome = true) ∧
    ((∃ r ∈ rawRights, isRightsElem r = false) → mapRights rawRights = none) := by
  constructor
  · intro h
    obtain ⟨out, hout, _⟩ := mapRightsLoop_spec rawRights [] h
    simp [mapRights, hout]
  · rintro ⟨r, hr, hbad⟩
    cases hres : mapRights rawRights with
    | none => rfl
    | some rights =>
      have hall := mapRightsLoop_isSome rawRights [] (by
        have : mapRightsLoop rawRights [] = some rights := hres
        simp [this])
      rw [hall r hr] at hbad
      cases hbad

/-! ## The operations, case by case -/

section Cases

variable {W : Type} (svc : Service W) (d : ResourceData) (s : Remote W)

/-- Read: the client cannot be constructed. -/
theorem read_newClient_error (e : GoError) (w1 : W)
    (h1 : svc.NewClient s.world = (Except.error e, w1)) :
    resourceOpsGenieTeamRoleRead svc d s =
      { err := some e, d := d,
        remote := { world := w1, calls := s.calls ++ [{ call := Call.NewClient, err := some e }] } } := by
  simp [resourceOpsGenieTeamRoleRead, perform, h1, errOf]

/-- Read: the lookup fails. -/
theorem read_getRole_error (u : Unit) (w1 w2 : W) (e : GoError)
    (h1 : svc.NewClient s.world = (Except.ok u, w1))
    (h2 : svc.GetRole { TeamID := d.team_id, RoleID := d.Id, RoleName := d.role_name } w1 =
      (Except.error e, w2)) :
    resourceOpsGenieTeamRoleRead svc d s =
      { err := some e, d := d,
        remote := { world := w2, calls := s.calls ++
          [{ call := Call.NewClient, err := none },
           { call := Call.GetRole { TeamID := d.team_id, RoleID := d.Id, RoleName := d.role_name },
             err := some e }] } } := by
  simp [resourceOpsGenieTeamRoleRead, perform, h1, h2, errOf]

/-- Read: the lookup succeeds. -/
theorem read_getRole_ok (u : Unit) (w1 w2 : W) (t : team.GetTeamRoleResult)
    (h1 : svc.NewClient s.world = (Except.ok u, w1))
    (h2 : svc.GetRole { TeamID := d.team_id, RoleID := d.Id, RoleName := d.role_name } w1 =
      (Except.ok t, w2)) :
    resourceOpsGenieTeamRoleRead svc d s =
      { err := none, d := (d.Set_role_name t.Name).Set_rights t.Rights,
        remote := { world := w2, calls := s.calls ++
          [{ call := Call.NewClient, err := none },
           { call := Call.GetRole { TeamID := d.team_id, RoleID := d.Id, RoleName := d.role_name },
             err := none }] } } := by
  simp [resourceOpsGenieTeamRoleRead, perform, h1, h2, errOf]

/-- Delete: the request fails. -/
theorem delete_deleteRole_error (u : Unit) (w1 w2 : W) (e : GoError)
    (h1 : svc.NewClient s.world = (Except.ok u, w1))
    (h2 : svc.DeleteRole { TeamID := d.team_id, RoleID := d.Id, RoleName := d.role_name } w1 =
      (Except.error e, w2)) :
    resourceOpsGenieTeamRoleDelete svc d s =
      { err := some e, d := d,
        remote := { world := w2, calls := s.calls ++
          [{ call := Call.NewClient, err := none },
           { call := Call.DeleteRole { TeamID := d.team_id, RoleID := d.Id, RoleName := d.role_name },
             err := some e }] } } := by
  simp [resourceOpsGenieTeamRoleDelete, perform, h1, h2, errOf]

/-- Delete: the request succeeds. -/
theorem delete_deleteRole_ok (u : Unit) (w1 w2 : W) (r : team.DeleteTeamRoleResult)
    (h1 : svc.NewClient s.world = (Except.ok u, w1))
    (h2 : svc.DeleteRole { TeamID := d.team_id, RoleID := d.Id, RoleName := d.role_name } w1 =
      (Except.ok r, w2)) :
    resourceOpsGenieTeamRoleDelete svc d s =
      { err := none, d := d,
        remote := { world := w2, calls := s.calls ++
          [{ call := Call.NewClient, err := none },
           { call := Call.DeleteRole { TeamID := d.team_id, RoleID := d.Id, RoleName := d.role_name },
             err := none }] } } := by
  simp [resourceOpsGenieTeamRoleDelete, perform, h1, h2, errOf]

/-- Update: the client cannot be constructed. -/
theorem update_newClient_error (e : GoError) (w1 : W)
    (h1 : svc.NewClient s.world = (Except.error e, w1)) :
    resourceOpsGenieTeamRoleUpdate svc d s =
      some { err := some e, d := d,
             remote := { world := w1, calls := s.calls ++ [{ call := Call.NewClient, err := some e }] } } := by
  simp [resourceOpsGenieTeamRoleUpdate, perform, h1, errOf]

/-- Update: the request fails. -/
theorem update_updateRole_error (u : Unit) (w1 w2 : W) (e : GoError) (rights : List team.Right)
    (h1 : svc.NewClient s.world = (Except.ok u, w1))
    (hr : mapRights d.rights = some rights)
    (h2 : svc.UpdateRole
      { TeamID := d.team_id, RoleID := d.Id, RoleName := d.role_name, Rights := rights } w1 =
      (Except.error e, w2)) :
    resourceOpsGenieTeamRoleUpdate svc d s =
      some { err := some e, d := d,
             remote := { world := w2, calls := s.calls ++
          [{ call := Call.NewClient, err := none },
           { call := Call.UpdateRole
               { TeamID := d.team_id, RoleID := d.Id, RoleName := d.role_name, Rights := rights },
             err := some e }] } } := by
  simp [resourceOpsGenieTeamRoleUpdate, perform, h1, hr, h2, errOf]

/-- Update: the request succeeds. -/
theorem update_updateRole_ok (u : Unit) (w1 w2 : W) (r : team.UpdateTeamRoleResult)
    (rights : List team.Right)
    (h1 : svc.NewClient s.world = (Except.ok u, w1))
    (hr : mapRights d.rights = some rights)
    (h2 : svc.UpdateRole
      { TeamID := d.team_id, RoleID := d.Id, RoleName := d.role_name, Rights := rights } w1 =
      (Except.ok r, w2)) :
    resourceOpsGenieTeamRoleUpdate svc d s =
      some { err := none, d := d,
             remote := { world := w2, calls := s.calls ++
          [{ call := Call.NewClient, err := none },
           { call := Call.UpdateRole
               { TeamID := d.team_id, RoleID := d.Id, RoleName := d.role_name, Rights := rights },
             err := none }] } } := by
  simp [resourceOpsGenieTeamRoleUpdate, perform, h1, hr, h2, errOf]

/-- Create: the request fails. -/
theorem create_createRole_error (u : Unit) (w1 w2 : W) (e : GoError) (rights : List team.Right)
    (h1 : svc.NewClient s.world = (Except.ok u, w1))
    (hr : mapRights d.rights = some rights)
    (h2 : svc.CreateRole
      { TeamIdentifierType := team.Identifier.Id, TeamIdentifierValue := d.team_id,
        Name := d.role_name, Rights := rights } w1 = (Except.error e, w2)) :
    resourceOpsGenieTeamRoleCreate svc d s =
      some { err := some e, d := d,
             remote := { world := w2, calls := s.calls ++
          [{ call := Call.NewClient, err := none },
           { call := Call.CreateRole
               { TeamIdentifierType := team.Identifier.Id, TeamIdentifierValue := d.team_id,
                 Name := d.role_name, Rights := rights },
             err := some e }] } } := by
  simp [resourceOpsGenieTeamRoleCreate, perform, h1, hr, h2, errOf]

/-- Create: the request succeeds; the ID is set and the state is read back in
the world the request left. -/
theorem create_createRole_ok (u : Unit) (w1 w2 : W) (r : team.CreateTeamRoleResult)
    (rights : List team.Right)
    (h1 : svc.NewClient s.world = (Except.ok u, w1))
    (hr : mapRights d.rights = some rights)
    (h2 : svc.CreateRole
      { TeamIdentifierType := team.Identifier.Id, TeamIdentifierValue := d.team_id,
        Name := d.role_name, Rights := rights } w1 = (Except.ok r, w2)) :
    resourceOpsGenieTeamRoleCreate svc d s =
      some (resourceOpsGenieTeamRoleRead svc (d.SetId r.Id)
        { world := w2, calls := s.calls ++
          [{ call := Call.NewClient, err := none },
           { call := Call.CreateRole
               { TeamIdentifierType := team.Identifier.Id, TeamIdentifierValue := d.team_id,
                 Name := d.role_name, Rights := rights },
             err := none }] }) := by
  simp [resourceOpsGenieTeamRoleCreate, perform, h1, hr, h2, errOf]

end Cases

/-! ## Error propagation -/

section Propagation

variable {W : Type} (svc : Service W) (d : ResourceData) (s : Remote W)

end Propagation

/-- Claim C4, as stated, fails for Create: on a service where the client is
constructed and every request succeeds, Create of the test role sends two
remote requests, `CreateRole` followed by the `GetRole` of the read-back. -/
theorem create_sends_two_requests :
    (okService.NewClient ()).1 = Except.ok () ∧
    Option.map (fun o => remoteCalls o.remote.calls)
      (resourceOpsGenieTeamRoleCreate okService basicRole (Remote.start ())) =
      some [Call.CreateRole
              { TeamIdentifierType := team.Identifier.Id, TeamIdentifierValue := "team-7",
                Name := "opsgenie-abc",
                Rights := [{ Right := "access-member-profiles", Granted := some true }] },
            Call.GetRole { TeamID := "team-7", RoleID := "role-1", RoleName := "opsgenie-abc" }] ∧
    Option.map (fun o => (remoteCalls o.remote.calls).length)
      (resourceOpsGenieTeamRoleCreate okService basicRole (Remote.start ())) ≠ some 1 :=
  ⟨rfl, by decide, by decide⟩

/-- Claim C4, amended: when client construction succeeds, Read, Update and
Delete each send exactly one remote request (`GetRole`, `UpdateRole`,
`DeleteRole`); Create sends `CreateRole` and nothing else when that request
fails, and `CreateRole` followed by the one `GetRole` of the read-back, for the
ID the service returned, when it succeeds. -/
theorem remote_requests_per_operation {W : Type} (svc : Service W) (d : ResourceData) (w : W)
    (hclient : ∀ w1 : W, (svc.NewClient w1).1 = Except.ok ())
    (h : ∀ r ∈ d.rights, isRightsElem r = true) :
    remoteCalls (resourceOpsGenieTeamRoleRead svc d (Remote.start w)).remote.calls =
      [Call.GetRole { TeamID := d.team_id, RoleID := d.Id, RoleName := d.role_name }] ∧
    remoteCalls (resourceOpsGenieTeamRoleDelete svc d (Remote.start w)).remote.calls =
      [Call.DeleteRole { TeamID := d.team_id, RoleID := d.Id, RoleName := d.role_name }] ∧
    (∃ o rights, mapRights d.rights = some rights ∧
      resourceOpsGenieTeamRoleUpdate svc d (Remote.start w) = some o ∧
      remoteCalls o.remote.calls =
        [Call.UpdateRole
          { TeamID := d.team_id, RoleID := d.Id, RoleName := d.role_name, Rights := rights }]) ∧
    (∃ o rights, mapRights d.rights = some rights ∧
      resourceOpsGenieTeamRoleCreate svc d (Remote.start w) = some o ∧
      remoteCalls o.remote.calls =
        match (svc.CreateRole
          { TeamIdentifierType := team.Identifier.Id, TeamIdentifierValue := d.team_id,
            Name := d.role_name, Rights := rights } (svc.NewClient w).2).1 with
        | Except.error _ =>
          [Call.CreateRole
            { TeamIdentifierType := team.Identifier.Id, TeamIdentifierValue := d.team_id,
              Name := d.role_name, Rights := rights }]
        | Except.ok result =>
          [Call.CreateRole
            { TeamIdentifierType := team.Identifier.Id, TeamIdentifierValue := d.team_id,
              Name := d.role_name, Rights := rights },
           Call.GetRole { TeamID := d.team_id, RoleID := result.Id, RoleName := d.role_name }]) := by
  obtain ⟨rights, hr, _⟩ := mapRightsLoop_spec d.rights [] h
  have hr : mapRights d.rights = some rights := by simpa [mapRights] using hr
  have hnew : ∀ w0 : W, ∃ u w1, svc.NewClient w0 = (Except.ok u, w1) := by
    intro w0
    have h0 := hclient w0
    rcases h1 : svc.NewClient w0 with ⟨e | u, w1⟩
    · rw [h1] at h0; cases h0
    · exact ⟨u, w1, rfl⟩
  obtain ⟨u, w1, h1⟩ := hnew w
  have h1s : svc.NewClient (Remote.start w).world = (Except.ok u, w1) := h1
  refine ⟨?_, ?_, ?_, ?_⟩
  · rcases h2 : svc.GetRole { TeamID := d.team_id, RoleID := d.Id, RoleName := d.role_name } w1
      with ⟨e | t, w2⟩
    · rw [read_getRole_error svc d _ u w1 w2 e h1s h2]
      simp [remoteCalls, Remote.start]
    · rw [read_getRole_ok svc d _ u w1 w2 t h1s h2]
      simp [remoteCalls, Remote.start]
  · rcases h2 : svc.DeleteRole { TeamID := d.team_id, RoleID := d.Id, RoleName := d.role_name } w1
      with ⟨e | t, w2⟩
    · rw [delete_deleteRole_error svc d _ u w1 w2 e h1s h2]
      simp [remoteCalls, Remote.start]
    · rw [delete_deleteRole_ok svc d _ u w1 w2 t h1s h2]
      simp [remoteCalls, Remote.start]
  · rcases h2 : svc.UpdateRole
      { TeamID := d.team_id, RoleID := d.Id, RoleName := d.role_name, Rights := rights } w1
      with ⟨e | t, w2⟩
    · exact ⟨_, rights, hr, update_updateRole_error svc d _ u w1 w2 e rights h1s hr h2,
        by simp [remoteCalls, Remote.start]⟩
    · exact ⟨_, rights, hr, update_updateRole_ok svc d _ u w1 w2 t rights h1s hr h2,
        by simp [remoteCalls, Remote.start]⟩
  · rcases h2 : svc.CreateRole
      { TeamIdentifierType := team.Identifier.Id, TeamIdentifierValue := d.team_id,
        Name := d.role_name, Rights := rights } w1 with ⟨e | r, w2⟩
    · refine ⟨_, rights, hr, create_createRole_error svc d _ u w1 w2 e rights h1s hr h2, ?_⟩
      simp [remoteCalls, Remote.start, h1, h2]
    · refine ⟨_, rights, hr, create_createRole_ok svc d _ u w1 w2 r rights h1s hr h2, ?_⟩
      obtain ⟨u2, w3, h3⟩ := hnew w2
      rcases h4 : svc.GetRole
        { TeamID := (d.SetId r.Id).team_id, RoleID := (d.SetId r.Id).Id,
          RoleName := (d.SetId r.Id).role_name } w3 with ⟨e | t, w4⟩
      · rw [read_getRole_error svc (d.SetId r.Id) _ u2 w3 w4 e h3 h4]
        simp [remoteCalls, Remote.start, h1, h2, ResourceData.SetId]
      · rw [read_getRole_ok svc (d.SetId r.Id) _ u2 w3 w4 t h3 h4]
        simp [remoteCalls, Remote.start, h1, h2, ResourceData.SetId]

/-- Witness of claim C4, amended: the four operations on the test role against
the service whose every request succeeds. -/
theorem remote_requests_per_operation_witness :
    (∀ w1 : Unit, (okService.NewClient w1).1 = Except.ok ()) ∧
    (∀ r ∈ basicRole.rights, isRightsElem r = true) ∧
    remoteCalls (resourceOpsGenieTeamRoleRead okService basicRole (Remote.start ())).remote.calls =
      [Call.GetRole { TeamID := "team-7", RoleID := "", RoleName := "opsgenie-abc" }] ∧
    remoteCalls (resourceOpsGenieTeamRoleDelete okService basicRole (Remote.start ())).remote.calls =
      [Call.DeleteRole { TeamID := "team-7", RoleID := "", RoleName := "opsgenie-abc" }] :=
  ⟨fun _ => rfl, by decide,
   (remote_requests_per_operation okService basicRole () (fun _ => rfl) (by decide)).1,
   (remote_requests_per_operation okService basicRole () (fun _ => rfl) (by decide)).2.1⟩

/-! ## Update, Create and Read on the tracked state -/

/-- Read leaves the ID and the team of the tracked state as they were. -/
theorem read_keeps_id {W : Type} (svc : Service W) (d : ResourceData) (s : Remote W) :
    (resourceOpsGenieTeamRoleRead svc d s).d.Id = d.Id ∧
    (resourceOpsGenieTeamRoleRead svc d s).d.team_id = d.team_id := by
  rcases h1 : svc.NewClient s.world with ⟨e | u, w1⟩
  · rw [read_newClient_error svc d s e w1 h1]
    exact ⟨rfl, rfl⟩
  · rcases h2 : svc.GetRole { TeamID := d.team_id, RoleID := d.Id, RoleName := d.role_name } w1
      with ⟨e | t, w2⟩
    · rw [read_getRole_error svc d s u w1 w2 e h1 h2]
      exact ⟨rfl, rfl⟩
    · rw [read_getRole_ok svc d s u w1 w2 t h1 h2]
      cases t.Rights with
      | nil => exact ⟨rfl, rfl⟩
      | cons _ _ => exact ⟨rfl, rfl⟩

/-- Claim C6: Update replaces the rights wholesale and never renames. The
`UpdateTeamRoleRequest` it builds carries the state's team_id, ID and role_name
and, as Rights, `mapRights` of the configured rights, whatever the service
holds; and the tracked state, its ID, team_id and role_name included, is left
as it was whether or not the remote call succeeds. -/
theorem update_replaces_rights_keeps_identity {W : Type} (svc : Service W) (d : ResourceData)
    (w : W) (rights : List team.Right) (hr : mapRights d.rights = some rights) :
    ∃ o, resourceOpsGenieTeamRoleUpdate svc d (Remote.start w) = some o ∧
      o.d = d ∧ o.d.Id = d.Id ∧ o.d.team_id = d.team_id ∧ o.d.role_name = d.role_name ∧
      (∀ req : team.UpdateTeamRoleRequest, Call.UpdateRole req ∈ remoteCalls o.remote.calls →
        req = { TeamID := d.team_id, RoleID := d.Id, RoleName := d.role_name, Rights := rights }) ∧
      ((svc.NewClient w).1 = Except.ok () →
        remoteCalls o.remote.calls =
          [Call.UpdateRole
            { TeamID := d.team_id, RoleID := d.Id, RoleName := d.role_name, Rights := rights }]) := by
  rcases h1 : svc.NewClient w with ⟨e | u, w1⟩
  · refine ⟨_, update_newClient_error svc d (Remote.start w) e w1 h1, rfl, rfl, rfl, rfl, ?_, ?_⟩
    · intro req hreq
      simp [remoteCalls, Remote.start] at hreq
    · intro hok
      cases hok
  · rcases h2 : svc.UpdateRole
      { TeamID := d.team_id, RoleID := d.Id, RoleName := d.role_name, Rights := rights } w1
      with ⟨e | t, w2⟩
    · refine ⟨_, update_updateRole_error svc d (Remote.start w) u w1 w2 e rights h1 hr h2,
        rfl, rfl, rfl, rfl, ?_, ?_⟩
      · intro req hreq
        simpa [remoteCalls, Remote.start] using hreq
      · intro _
        simp [remoteCalls, Remote.start]
    · refine ⟨_, update_updateRole_ok svc d (Remote.start w) u w1 w2 t rights h1 hr h2,
        rfl, rfl, rfl, rfl, ?_, ?_⟩
      · intro req hreq
        simpa [remoteCalls, Remote.start] using hreq
      · intro _
        simp [remoteCalls, Remote.start]

/-- Witness of claim C6: Update of the test role, once against a service that
accepts it and once against one that fails, leaves the state as it was. -/
theorem update_replaces_rights_keeps_identity_witness :
    mapRights basicRole.rights =
      some [{ Right := "access-member-profiles", Granted := some true }] ∧
    (∃ o, resourceOpsGenieTeamRoleUpdate okService basicRole (Remote.start ()) = some o ∧
      o.d = basicRole) ∧
    (∃ o, resourceOpsGenieTeamRoleUpdate (failingService (GoError.other "timeout")) basicRole
        (Remote.start ()) = some o ∧ o.d = basicRole) := by
  refine ⟨by decide, ?_, ?_⟩
  · obtain ⟨o, h1, h2, _⟩ := update_replaces_rights_keeps_identity okService basicRole ()
      [{ Right := "access-member-profiles", Granted := some true }] (by decide)
    exact ⟨o, h1, h2⟩
  · obtain ⟨o, h1, h2, _⟩ := update_replaces_rights_keeps_identity
      (failingService (GoError.other "timeout")) basicRole ()
      [{ Right := "access-member-profiles", Granted := some true }] (by decide)
    exact ⟨o, h1, h2⟩

/-- Claim C7: Create identifies the new role by the string the service returns.
The `CreateTeamRoleRequest` it sends has identifier type `team.Id`, the
configured team_id as identifier value, the configured role_name as Name and
`mapRights` of the configured rights as Rights. When `CreateRole` succeeds with
result `r`, the ID is set to `r.Id` and only then the state is read back, and
the ID is `r.Id` afterwards; when `CreateRole` fails, its error is returned and
the tracked state, ID included, is left as it was. -/
theorem create_request_and_id {W : Type} (svc : Service W) (d : ResourceData) (w : W)
    (rights : List team.Right) (hr : mapRights d.rights = some rights)
    (hc : (svc.NewClient w).1 = Except.ok ()) :
    ∃ o, resourceOpsGenieTeamRoleCreate svc d (Remote.start w) = some o ∧
      (o.remote.calls.take 2).map (fun ev => ev.call) =
        [Call.NewClient,
         Call.CreateRole
           { TeamIdentifierType := team.Identifier.Id, TeamIdentifierValue := d.team_id,
             Name := d.role_name, Rights := rights }] ∧
      (∀ e : GoError,
        (svc.CreateRole
          { TeamIdentifierType := team.Identifier.Id, TeamIdentifierValue := d.team_id,
            Name := d.role_name, Rights := rights } (svc.NewClient w).2).1 = Except.error e →
        o.err = some e ∧ o.d = d ∧
        remoteCalls o.remote.calls =
          [Call.CreateRole
            { TeamIdentifierType := team.Identifier.Id, TeamIdentifierValue := d.team_id,
              Name := d.role_name, Rights := rights }]) ∧
      (∀ r : team.CreateTeamRoleResult,
        (svc.CreateRole
          { TeamIdentifierType := team.Identifier.Id, TeamIdentifierValue := d.team_id,
            Name := d.role_name, Rights := rights } (svc.NewClient w).2).1 = Except.ok r →
        o = resourceOpsGenieTeamRoleRead svc (d.SetId r.Id)
          { world := (svc.CreateRole
              { TeamIdentifierType := team.Identifier.Id, TeamIdentifierValue := d.team_id,
                Name := d.role_name, Rights := rights } (svc.NewClient w).2).2,
            calls :=
              [{ call := Call.NewClient, err := none },
               { call := Call.CreateRole
                   { TeamIdentifierType := team.Identifier.Id, TeamIdentifierValue := d.team_id,
                     Name := d.role_name, Rights := rights },
                 err := none }] } ∧
        (d.SetId r.Id).Id = r.Id ∧ (d.SetId r.Id).team_id = d.team_id ∧
        (d.SetId r.Id).role_name = d.role_name ∧ (d.SetId r.Id).rights = d.rights ∧
        o.d.Id = r.Id ∧ o.d.team_id = d.team_id) := by
  rcases h1 : svc.NewClient w with ⟨e | u, w1⟩
  · rw [h1] at hc
    cases hc
  · rcases h2 : svc.CreateRole
      { TeamIdentifierType := team.Identifier.Id, TeamIdentifierValue := d.team_id,
        Name := d.role_name, Rights := rights } w1 with ⟨e | r, w2⟩
    · refine ⟨_, create_createRole_error svc d (Remote.start w) u w1 w2 e rights h1 hr h2,
        by simp [Remote.start], ?_, ?_⟩
      · intro e' he'
        cases he'
        exact ⟨rfl, rfl, by simp [remoteCalls, Remote.start]⟩
      · intro r hr'
        cases hr'
    · refine ⟨_, create_createRole_ok svc d (Remote.start w) u w1 w2 r rights h1 hr h2,
        ?_, ?_, ?_⟩
      · rcases h3 : svc.NewClient w2 with ⟨e | u2, w3⟩
        · rw [read_newClient_error svc (d.SetId r.Id) _ e w3 h3]
          simp [Remote.start]
        · rcases h4 : svc.GetRole
            { TeamID := (d.SetId r.Id).team_id, RoleID := (d.SetId r.Id).Id,
              RoleName := (d.SetId r.Id).role_name } w3 with ⟨e | t, w4⟩
          · rw [read_getRole_error svc (d.SetId r.Id) _ u2 w3 w4 e h3 h4]
            simp [Remote.start]
          · rw [read_getRole_ok svc (d.SetId r.Id) _ u2 w3 w4 t h3 h4]
            simp [Remote.start]
      · intro e' he'
        cases he'
      · intro r' hr'
        cases hr'
        exact ⟨rfl, rfl, rfl, rfl, rfl,
          (read_keeps_id svc (d.SetId r.Id) _).1, (read_keeps_id svc (d.SetId r.Id) _).2⟩

/-- Witness of claim C7: Create of the test role against the service that
creates roles under the ID "role-1". -/
theorem create_request_and_id_witness :
    mapRights basicRole.rights =
      some [{ Right := "access-member-profiles", Granted := some true }] ∧
    (okService.NewClient ()).1 = Except.ok () ∧
    (∃ o, resourceOpsGenieTeamRoleCreate okService basicRole (Remote.start ()) = some o ∧
      o.d.Id = "role-1") := by
  refine ⟨by decide, rfl, ?_⟩
  obtain ⟨o, h1, _, _, h3⟩ := create_request_and_id okService basicRole ()
    [{ Right := "access-member-profiles", Granted := some true }] (by decide) rfl
  exact ⟨o, h1, (h3 { Id := "role-1", Name := "opsgenie-abc" } rfl).2.2.2.2.2.1⟩

/-- What Read does to the tracked state. The `GetTeamRoleRequest` it sends
carries the state's team_id, ID and role_name. When `GetRole` succeeds with
response `t`, the state's role_name is `t.Name` and its ID and team_id are as
before, while its rights are as before too whenever `t.Rights` holds a right
(they are emptied when it holds none); when `GetRole` fails the state is left
as it was. -/
theorem read_copies_name_keeps_rights {W : Type} (svc : Service W) (d : ResourceData) (w : W)
    (hc : (svc.NewClient w).1 = Except.ok ()) :
    remoteCalls (resourceOpsGenieTeamRoleRead svc d (Remote.start w)).remote.calls =
      [Call.GetRole { TeamID := d.team_id, RoleID := d.Id, RoleName := d.role_name }] ∧
    (∀ t : team.GetTeamRoleResult,
      (svc.GetRole { TeamID := d.team_id, RoleID := d.Id, RoleName := d.role_name }
        (svc.NewClient w).2).1 = Except.ok t →
      (resourceOpsGenieTeamRoleRead svc d (Remote.start w)).err = none ∧
      (resourceOpsGenieTeamRoleRead svc d (Remote.start w)).d.role_name = t.Name ∧
      (t.Rights ≠ [] →
        (resourceOpsGenieTeamRoleRead svc d (Remote.start w)).d.rights = d.rights) ∧
      (t.Rights = [] →
        (resourceOpsGenieTeamRoleRead svc d (Remote.start w)).d.rights = []) ∧
      (resourceOpsGenieTeamRoleRead svc d (Remote.start w)).d.Id = d.Id ∧
      (resourceOpsGenieTeamRoleRead svc d (Remote.start w)).d.team_id = d.team_id) ∧
    (∀ e : GoError,
      (svc.GetRole { TeamID := d.team_id, RoleID := d.Id, RoleName := d.role_name }
        (svc.NewClient w).2).1 = Except.error e →
      (resourceOpsGenieTeamRoleRead svc d (Remote.start w)).err = some e ∧
      (resourceOpsGenieTeamRoleRead svc d (Remote.start w)).d = d) := by
  rcases h1 : svc.NewClient w with ⟨e | u, w1⟩
  · rw [h1] at hc
    cases hc
  · rcases h2 : svc.GetRole { TeamID := d.team_id, RoleID := d.Id, RoleName := d.role_name } w1
      with ⟨e | t, w2⟩
    · rw [read_getRole_error svc d (Remote.start w) u w1 w2 e h1 h2]
      refine ⟨by simp [remoteCalls, Remote.start], ?_, ?_⟩
      · intro t ht
        cases ht
      · intro e' he'
        cases he'
        exact ⟨rfl, rfl⟩
    · rw [read_getRole_ok svc d (Remote.start w) u w1 w2 t h1 h2]
      refine ⟨by simp [remoteCalls, Remote.start], ?_, ?_⟩
      · intro t' ht'
        cases ht'
        obtain ⟨tid, tname, trights⟩ := t
        cases trights with
        | nil =>
          exact ⟨rfl, rfl, fun hne => absurd rfl hne, fun _ => rfl, rfl, rfl⟩
        | cons r rest =>
          refine ⟨rfl, rfl, fun _ => rfl, fun hnil => ?_, rfl, rfl⟩
          cases hnil
      · intro e' he'
        cases he'

/-- Claim C8 at the failing input: the tracked test role grants
`access-member-profiles` and the lookup finds the role renamed, with
`edit-rooms` denied as its only right. Read returns nil and takes over the
name, but the rights of the state are still the old ones, not the pair of the
response. -/
theorem read_misses_rights_of_response :
    (driftService.GetRole
      { TeamID := "team-7", RoleID := "", RoleName := "opsgenie-abc" } ()).1 =
      Except.ok { Id := "", Name := "opsgenie-renamed",
                  Rights := [{ Right := "edit-rooms", Granted := some false }] } ∧
    (resourceOpsGenieTeamRoleRead driftService basicRole (Remote.start ())).err = none ∧
    (resourceOpsGenieTeamRoleRead driftService basicRole (Remote.start ())).d.role_name =
      "opsgenie-renamed" ∧
    mapRights (resourceOpsGenieTeamRoleRead driftService basicRole (Remote.start ())).d.rights =
      some [{ Right := "access-member-profiles", Granted := some true }] ∧
    mapRights (resourceOpsGenieTeamRoleRead driftService basicRole (Remote.start ())).d.rights ≠
      some [{ Right := "edit-rooms", Granted := some false }] :=
  ⟨rfl, by decide, by decide, by decide, by decide⟩

/-! ## The destroy check -/

/-- When every lookup either finds the role or fails with status 404, the loop
of the destroy check returns nil. -/
theorem destroy_loop_returns_nil {W : Type} (svc : Service W)
    (hget : ∀ (req : team.GetTeamRoleRequest) (w : W),
      (∃ t, (svc.GetRole req w).1 = Except.ok t) ∨
      (∃ text, (svc.GetRole req w).1 = Except.error (GoError.apiError 404 text)))
    (resources : List ResourceState) :
    ∀ s : Remote W, ∃ o, testCheckOpsGenieTeamRoleDestroyLoop svc resources s = some o ∧
      o.err = none := by
  induction resources with
  | nil => intro s; exact ⟨_, rfl, rfl⟩
  | cons rs rest ih =>
    intro s
    by_cases hty : rs.type = "opsgenie_team_role"
    · rcases hget
        { TeamID := toString team.Identifier.Id.toInt,
          RoleID := lookupAttr rs.Attributes "role_id",
          RoleName := lookupAttr rs.Attributes "role_name" } s.world with ⟨t, ht⟩ | ⟨text, ht⟩
      · obtain ⟨o, ho, herr⟩ := ih (perform (Call.GetRole
          { TeamID := toString team.Identifier.Id.toInt,
            RoleID := lookupAttr rs.Attributes "role_id",
            RoleName := lookupAttr rs.Attributes "role_name" })
          (svc.GetRole
          { TeamID := toString team.Identifier.Id.toInt,
            RoleID := lookupAttr rs.Attributes "role_id",
            RoleName := lookupAttr rs.Attributes "role_name" }) s).2
        refine ⟨o, ?_, herr⟩
        rw [← ho]
        simp [testCheckOpsGenieTeamRoleDestroyLoop, hty, perform, ht]
      · obtain ⟨o, ho, herr⟩ := ih (perform (Call.GetRole
          { TeamID := toString team.Identifier.Id.toInt,
            RoleID := lookupAttr rs.Attributes "role_id",
            RoleName := lookupAttr rs.Attributes "role_name" })
          (svc.GetRole
          { TeamID := toString team.Identifier.Id.toInt,
            RoleID := lookupAttr rs.Attributes "role_id",
            RoleName := lookupAttr rs.Attributes "role_name" }) s).2
        refine ⟨o, ?_, herr⟩
        rw [← ho]
        simp [testCheckOpsGenieTeamRoleDestroyLoop, hty, perform, ht]
    · obtain ⟨o, ho, herr⟩ := ih s
      refine ⟨o, ?_, herr⟩
      rw [← ho]
      simp [testCheckOpsGenieTeamRoleDestroyLoop, hty]

/-- Claim C9 at the failing input: for a final state holding one team role
resource, against a service whose `GetRole` lookup finds the role, the destroy
check makes that lookup and returns nil, not an error. -/
theorem destroy_check_misses_existing_role :
    Option.map (fun o => (o.err, o.remote.calls))
      (testCheckOpsGenieTeamRoleDestroy okService oneRoleState (Remote.start ())) =
      some (none,
        [{ call := Call.NewClient, err := none },
         { call := Call.GetRole { TeamID := "1", RoleID := "", RoleName := "opsgenie-abc" },
           err := none }]) := by
  decide

end Opsgenie
